import Mathlib

/-!
Verification of the PITR (point-in-time recovery) core of this repository:
the backup-chain resolver and restore pipeline of
`scripts/tasks/restore/point_in_time_restore.py` and the deferred binlog
apply engine of `scripts/tasks/binlog/apply_pitr_binlog.py`.

Modelling conventions, shared by all definitions below:

* Backup timestamps appear in the source in two order-isomorphic forms: the
  compact fixed-width string `YYYYMMDD_HHMMSS` (compared lexicographically,
  which the fixed-width zero-padded format makes identical to chronological
  order) and UTC epoch seconds (integers).  Both are modelled as `Nat`
  instants; the only arithmetic the source performs (`+ 1` second for the
  stop bound) happens in the epoch form and is `Nat` addition here.
* The backup catalog is the set of directory names matching
  `^\d{8}_\d{6}$` under `full/` and `incremental/` of the backup root
  (`find_latest_backup_before_target`, lines 220-236, and
  `find_incremental_backups`, lines 310-320).  S3 listing is disabled by
  default (`S3_BACKUP_ENABLED` defaults to `"false"`), so the catalog is the
  local one; it is modelled as two lists of timestamps.  Directory names in
  one directory are distinct, which theorems take as a `Nodup` hypothesis.
* Python's `list.sort` is stable, and `sort(key=..., reverse=True)` keeps
  the original order of equal keys.  It is modelled by
  `List.insertionSort` with a non-strict relation, which inserts earlier
  elements before later equal ones, hence is stable in the same way.
* External subprocesses (xtrabackup, mysqlbinlog, mysql) are opaque: each
  invocation is represented by its observable result (an exit code, an
  output string), supplied as an argument.
-/

/-- Kind of a backup entry: a directory under `full/` or under
`incremental/` of the backup root. -/
inductive BackupKind
  | full
  | incremental
deriving DecidableEq, Repr

/-- The local backup catalog: timestamps of the directories under `full/`
and under `incremental/` whose names match `^\d{8}_\d{6}$`. -/
structure Catalog where
  fulls : List Nat
  incrementals : List Nat
deriving DecidableEq, Repr

/-- Descending comparison on `(kind, timestamp)` pairs by timestamp, the
key order of `all_backups.sort(key=lambda x: x[1], reverse=True)`
(point_in_time_restore.py line 285). -/
def tsDesc (a b : BackupKind × Nat) : Prop := b.2 ≤ a.2

instance tsDesc_decidableRel : DecidableRel tsDesc :=
  fun a b => inferInstanceAs (Decidable (b.2 ≤ a.2))

instance tsDesc_isTotal : IsTotal (BackupKind × Nat) tsDesc :=
  ⟨fun a b => Nat.le_total b.2 a.2⟩

instance tsDesc_isTrans : IsTrans (BackupKind × Nat) tsDesc :=
  ⟨fun _ _ _ h1 h2 => Nat.le_trans h2 h1⟩

/-- Descending comparison on bare timestamps, the order of
`full_backups.sort(reverse=True)` (line 910) and
`incremental_timestamps.sort(reverse=True)` (line 502). -/
def tsGe (a b : Nat) : Prop := b ≤ a

instance tsGe_decidableRel : DecidableRel tsGe :=
  fun a b => inferInstanceAs (Decidable (b ≤ a))

instance tsGe_isTotal : IsTotal Nat tsGe := ⟨fun a b => Nat.le_total b a⟩

instance tsGe_isTrans : IsTrans Nat tsGe :=
  ⟨fun _ _ _ h1 h2 => Nat.le_trans h2 h1⟩

/-- The `all_backups` list of `find_latest_backup_before_target`
(lines 217-236): every full and incremental backup with timestamp at or
before the target, fulls collected first. -/
def all_backups (c : Catalog) (target : Nat) : List (BackupKind × Nat) :=
  (c.fulls.filter (fun ts => decide (ts ≤ target))).map
      (fun ts => (BackupKind.full, ts))
    ++ (c.incrementals.filter (fun ts => decide (ts ≤ target))).map
      (fun ts => (BackupKind.incremental, ts))

/-- Translation of `find_latest_backup_before_target` (lines 199-291):
sort `all_backups` descending by timestamp (stably, so at equal timestamps
the full entry collected first stays first, line 285) and take the first
entry.  The source signals "none found" by returning the sentinel
`("full", "")`, modelled as `none`. -/
def find_latest_backup_before_target (c : Catalog) (target : Nat) :
    Option (BackupKind × Nat) :=
  (List.insertionSort tsDesc (all_backups c target)).head?

/-- Translation of `find_incremental_backups` (lines 293-331): keep the
incremental backups with `full_backup_timestamp < ts < target_timestamp`
(both comparisons strict, line 319) and sort ascending (line 324). -/
def find_incremental_backups (c : Catalog) (fullTs target : Nat) : List Nat :=
  List.insertionSort (· ≤ ·)
    (c.incrementals.filter (fun ts => decide (fullTs < ts) && decide (ts < target)))

/-- Translation of the "most recent full backup" fallback used when the
anchor is an incremental (lines 900-911): all directory names under
`full/`, sorted descending, first element. -/
def most_recent_full (c : Catalog) : Option Nat :=
  (List.insertionSort tsGe c.fulls).head?

/-- Fatal error states of the restore script (each one is an `error_exit`,
which prints the message and exits with status 1). -/
inductive RestoreError
  | noBackupBeforeTarget
  | noFullBackupForIncremental
  | finalPrepareFailed
deriving DecidableEq, Repr

/-- A resolved backup chain: the full backup used as base and the ordered
incremental backups to merge onto it. -/
structure BackupChain where
  base : Nat
  incrementals : List Nat
deriving DecidableEq, Repr

/-- Chain-resolution slice of `restore_to_point_in_time`
(lines 887-941 and 1027-1035).

* `explicitFull = some f`: the caller supplied a full-backup timestamp
  (line 889), so no anchor search happens; the incrementals are the
  caller's list if nonempty, otherwise auto-discovered (line 1028).
* `explicitFull = none`: the anchor is the latest backup at or before the
  target (line 891).  If none exists the sentinel propagates into a fatal
  exit (the empty timestamp names no usable backup directory, so the
  validation at lines 923-941 reaches `error_exit` before any restore
  action), modelled as `RestoreError.noBackupBeforeTarget`.  If the anchor
  is an incremental, the base is the most recent full backup in the
  catalog and exactly that anchor is the single incremental (lines
  895-916); the caller's incremental list is overwritten in both anchor
  branches (lines 915 and 920), so `explicitIncs` is ignored here. -/
def resolve_chain (c : Catalog) (target : Nat) (explicitFull : Option Nat)
    (explicitIncs : List Nat) : Except RestoreError BackupChain :=
  match explicitFull with
  | some fullTs =>
      .ok ⟨fullTs,
        if explicitIncs.isEmpty then find_incremental_backups c fullTs target
        else explicitIncs⟩
  | none =>
      match find_latest_backup_before_target c target with
      | none => .error .noBackupBeforeTarget
      | some (.incremental, anchorTs) =>
          match most_recent_full c with
          | none => .error .noFullBackupForIncremental
          | some fullTs => .ok ⟨fullTs, [anchorTs]⟩
      | some (.full, fullTs) =>
          .ok ⟨fullTs, find_incremental_backups c fullTs target⟩

/-- Exit codes of the external xtrabackup invocations made by the merge
and materialize phase of `restore_to_point_in_time`; 0 means success. -/
structure ToolExits where
  basePrepare : Nat
  incMerges : List Nat
  finalPrepare : Nat
  copyBack : Nat
deriving DecidableEq, Repr

/-- Merge/materialize phase of `restore_to_point_in_time`.
Faithful to the source:

* base `xtrabackup --prepare --apply-log-only` (lines 1070-1074) runs with
  `check=False` and its return code is never read, so `basePrepare` does
  not influence the result;
* each incremental merge (lines 1130-1134) likewise runs with
  `check=False` and its return code is never read (`incMerges` ignored);
* the final `xtrabackup --prepare` (lines 1141-1153) is the only step
  whose return code is inspected; nonzero reaches `error_exit`
  ("备份准备失败") and aborts the restore;
* `xtrabackup --copy-back` (lines 1205-1210) runs with `check=False`, only
  its stdout is logged, and its return code is never read (`copyBack`
  ignored). -/
def run_merge_phase (t : ToolExits) : Except RestoreError Unit :=
  if t.finalPrepare ≠ 0 then .error .finalPrepareFailed
  else .ok ()

/-- Inputs of `apply_binlog_to_datetime` (lines 333-869) that decide
whether and with which bounds the binlog extraction runs.  Instants are
epoch seconds (`Nat`). -/
structure BinlogEnv where
  binlogIndexExists : Bool
  binlogFiles : List String
  mysqlbinlogAvailable : Bool
  fullBackupTs : Option Nat
  appliedIncTs : List Nat
  targetEpoch : Option Nat
deriving DecidableEq, Repr

/-- Python truthiness of the parsed target epoch: `if target_timestamp_epoch:`
(lines 588, 663) treats both `None` (parse failure) and `0` as false. -/
def truthy_epoch (o : Option Nat) : Option Nat :=
  match o with
  | some t => if t = 0 then none else some t
  | none => none

/-- Translation of lines 481-524: the extraction start point is the newer
of the supplied full-backup timestamp and the newest applied incremental
(the incrementals are sorted descending and the first is taken, lines
501-503; then `if inc > full` picks the larger, lines 512-518). -/
def latest_backup_timestamp (fullTs : Option Nat) (incTs : List Nat) :
    Option Nat :=
  let actualInc := (List.insertionSort tsGe incTs).head?
  match actualInc, fullTs with
  | some i, some f => some (if f < i then i else f)
  | some i, none => some i
  | none, some f => some f
  | none, none => none

/-- Outcome of the window-decision part of `apply_binlog_to_datetime`: the
function either returns early without invoking the extraction tool (the
`skip` cases, each a bare `return` in the source) or proceeds to invoke
`mysqlbinlog` with the given `--start-datetime` (absent when no backup
timestamp is known) and `--stop-datetime` bounds. -/
inductive BinlogOutcome
  | skipNoIndex
  | skipNoFiles
  | skipNoTool
  | skipNoStop
  | skipTargetNotAfterBackup
  | window (startEpoch : Option Nat) (stopEpoch : Nat)
deriving DecidableEq, Repr

/-- True exactly on the non-skipped outcomes. -/
def BinlogOutcome.isWindow : BinlogOutcome → Bool
  | .window _ _ => true
  | _ => false

/-- Bound computation of `apply_binlog_to_datetime` (lines 562-674): the
start bound is the latest applied backup's instant `be` (absent when no
backup timestamp is known), the stop bound is target + 1 second (lines
589 and 664).  When both bounds are known and `start_epoch >= stop_epoch`
(line 598, equivalent to `be >= te + 1` since the formatting and
reparsing of the two strings shifts both epochs equally), the source
skips if `target <= backup` (line 612) and otherwise proceeds with the
backup instant as start (line 617); the inner comparison is translated
literally even though inside that branch it always holds.  An unparsable
or zero target epoch means no stop bound and a skip (lines 663-674). -/
def binlog_window_decision (te be : Option Nat) : BinlogOutcome :=
  match te, be with
  | some t, some b =>
      if t + 1 ≤ b then
        if t ≤ b then .skipTargetNotAfterBackup
        else .window (some b) (t + 1)
      else .window (some b) (t + 1)
  | some t, none => .window none (t + 1)
  | none, _ => .skipNoStop

/-- The three early-return guards of `apply_binlog_to_datetime` in source
order (index at lines 411-414, file list at lines 450-453, tool at lines
474-477), followed by the window decision. -/
def apply_binlog_to_datetime (env : BinlogEnv) : BinlogOutcome :=
  if !env.binlogIndexExists then .skipNoIndex
  else if env.binlogFiles.isEmpty then .skipNoFiles
  else if !env.mysqlbinlogAvailable then .skipNoTool
  else
    binlog_window_decision (truthy_epoch env.targetEpoch)
      (latest_backup_timestamp env.fullBackupTs env.appliedIncTs)

/-- Whether the pending-apply marker `.pitr_restore_marker` gets written
(lines 800-816): only after a non-skipped extraction whose output file is
nonempty (lines 782-786 delete the file and return otherwise);
`extractionNonempty` stands for the opaque extraction tool producing a
nonempty replay file. -/
def binlog_marker_written (o : BinlogOutcome) (extractionNonempty : Bool) :
    Bool :=
  match o with
  | .window _ _ => extractionNonempty
  | _ => false

/-- Result of a completed `restore_to_point_in_time` run: the chain that
was merged and the outcome of the binlog step. -/
structure RestoreReport where
  chain : BackupChain
  binlog : BinlogOutcome
deriving DecidableEq, Repr

/-- Translation of `restore_to_point_in_time` (lines 871-1317): resolve
the chain, run the merge/materialize phase, then call
`apply_binlog_to_datetime` with the resolved base timestamp, the applied
incrementals (line 1297; all resolved incremental directories are assumed
present and complete) and the target; its outcome never fails the
pipeline (`apply_binlog_to_datetime` contains no `error_exit`), after
which the script logs "时间点恢复完成" and returns. -/
def restore_to_point_in_time (c : Catalog) (target : Nat)
    (explicitFull : Option Nat) (explicitIncs : List Nat) (tools : ToolExits)
    (binlogIndexExists : Bool) (binlogFiles : List String)
    (mysqlbinlogAvailable : Bool) : Except RestoreError RestoreReport :=
  match resolve_chain c target explicitFull explicitIncs with
  | .error e => .error e
  | .ok chain =>
      match run_merge_phase tools with
      | .error e => .error e
      | .ok () =>
          .ok ⟨chain,
            apply_binlog_to_datetime
              ⟨binlogIndexExists, binlogFiles, mysqlbinlogAvailable,
                some chain.base, chain.incrementals, some target⟩⟩

/-- Python substring containment `needle in hay`; strings are handled as
their character lists so that every operation reduces in the kernel. -/
def containsSub (needle hay : List Char) : Bool :=
  decide (needle <:+: hay)

/-- Python `str.upper()`; `Char.toUpper` agrees with it on the ASCII text
the classifier inspects. -/
def pyUpper (l : List Char) : List Char :=
  l.map Char.toUpper

/-- Python whitespace, as stripped by `str.strip()`. -/
def isPySpace (c : Char) : Bool :=
  c = ' ' || c = '\t' || c = '\n' || c = '\r' ||
  c = Char.ofNat 11 || c = Char.ofNat 12

/-- Python `str.strip()`: drop leading and trailing whitespace. -/
def pyStrip (l : List Char) : List Char :=
  ((l.dropWhile isPySpace).reverse.dropWhile isPySpace).reverse

/-- Python `str.split` on a newline separator, as in `output.split('\n')`
(apply_pitr_binlog.py line 226): an empty input yields one empty field. -/
def splitNL : List Char → List (List Char)
  | [] => [[]]
  | c :: rest =>
      let r := splitNL rest
      if c = '\n' then [] :: r
      else
        match r with
        | [] => [[c]]
        | h :: t => (c :: h) :: t

/-- The pattern `"ERROR"` looked for in each uppercased line
(apply_pitr_binlog.py line 228). -/
def errorPat : List Char := "ERROR".data

/-- The non-critical patterns of `apply_sql_file`
(apply_pitr_binlog.py lines 234-241), checked against the uppercased
line: ERROR 1050 (table exists), ERROR 1062 (duplicate entry), ERROR 1032
(record not found), ERROR 1146 (table does not exist), password warning,
generic warning. -/
def nonCriticalPats : List (List Char) :=
  ["ERROR 1050".data, "ERROR 1062".data, "ERROR 1032".data,
    "ERROR 1146".data, "USING A PASSWORD".data, "WARNING".data]

/-- Disjunction of the non-critical patterns over an uppercased line
(the `is_non_critical` expression, lines 234-241). -/
def is_non_critical_line (lineUpper : List Char) : Bool :=
  nonCriticalPats.any (fun pat => containsSub pat lineUpper)

/-- A line classifies as a critical error (gets appended to
`critical_errors`, lines 226-243) when its uppercase form contains
"ERROR" and matches none of the non-critical patterns. -/
def criticalLine (line : List Char) : Bool :=
  containsSub errorPat (pyUpper line) && !(is_non_critical_line (pyUpper line))

/-- The critical error lines of the combined mysql output: the source
iterates `output.split('\n')` and appends `line.strip()` for every
critical line (lines 226-243). -/
def critical_errors (output : List Char) : List (List Char) :=
  ((splitNL output).filter criticalLine).map pyStrip

/-- Number of critical error lines (`critical_count`, line 245). -/
def critical_count (output : List Char) : Nat :=
  (critical_errors output).length

/-- Observable result of one run of `main` in `apply_pitr_binlog.py`: the
process return code and whether the marker file was removed.  The source
never deletes the replay SQL file in any branch, recorded by
`sqlFileRemoved` being always false. -/
structure DeferredApplyResult where
  returnCode : Nat
  markerRemoved : Bool
  sqlFileRemoved : Bool
deriving DecidableEq, Repr

/-- Translation of `main` of `apply_pitr_binlog.py` (lines 262-350):

* no marker file: return 0 (line 266-268);
* marker present but the referenced SQL file missing or empty path:
  delete the marker (the `os.remove` is assumed to succeed), return 1
  (lines 281-288);
* MySQL unreachable after bounded polling: return 1, marker kept
  (lines 300-302);
* `run = none` models `apply_sql_file` returning `success=False`
  (timeout after one hour or an exception, lines 255-260): return 1,
  marker kept (lines 322-324);
* otherwise the mysql process ran to completion with the given exit code
  and combined output: success iff the exit code is 0 or no output line
  classifies critical (lines 327-333), in which case the marker is
  deleted (lines 342-346); on failure the marker and the SQL file are
  left in place and 1 is returned without raising (lines 334-339). -/
def apply_pitr_main (markerExists sqlFileValid mysqlReachable : Bool)
    (run : Option (Int × List Char)) : DeferredApplyResult :=
  if !markerExists then ⟨0, false, false⟩
  else if !sqlFileValid then ⟨1, true, false⟩
  else if !mysqlReachable then ⟨1, false, false⟩
  else
    match run with
    | none => ⟨1, false, false⟩
    | some (code, output) =>
        if code = 0 ∨ critical_count output = 0 then ⟨0, true, false⟩
        else ⟨1, false, false⟩

/-- Helper: the head of a list, when present, is a member. -/
theorem mem_of_head?_some {α : Type} {l : List α} {a : α}
    (h : l.head? = some a) : a ∈ l := by
  cases l with
  | nil => cases h
  | cons x xs =>
      have hx : x = a := by simpa using h
      exact hx ▸ List.mem_cons_self x xs

/-- Helper: the head of the descending insertion sort of a list of
timestamps is a maximal member. -/
theorem sort_tsGe_head_max {l : List Nat} {b : Nat}
    (h : (List.insertionSort tsGe l).head? = some b) :
    b ∈ l ∧ ∀ x ∈ l, x ≤ b := by
  have hperm := List.perm_insertionSort tsGe l
  have hsorted := List.sorted_insertionSort tsGe l
  cases hs : List.insertionSort tsGe l with
  | nil => rw [hs] at h; cases h
  | cons a t =>
      rw [hs] at h hperm hsorted
      have hab : a = b := by simpa using h
      subst hab
      refine ⟨hperm.mem_iff.1 (List.mem_cons_self _ _), ?_⟩
      intro x hx
      rcases List.mem_cons.1 (hperm.mem_iff.2 hx) with h1 | h2
      · exact Nat.le_of_eq h1
      · exact List.rel_of_sorted_cons hsorted x h2

/-- Helper: specification of `most_recent_full` on a nonempty catalog of
full backups: it returns a maximal element. -/
theorem most_recent_full_spec {c : Catalog} (h : c.fulls ≠ []) :
    ∃ b, most_recent_full c = some b ∧ b ∈ c.fulls ∧ ∀ x ∈ c.fulls, x ≤ b := by
  cases hs : List.insertionSort tsGe c.fulls with
  | nil =>
      exfalso
      have hperm := List.perm_insertionSort tsGe c.fulls
      rw [hs] at hperm
      exact h (List.Perm.eq_nil hperm.symm)
  | cons a t =>
      have hhead : (List.insertionSort tsGe c.fulls).head? = some a := by
        rw [hs]; rfl
      obtain ⟨hmem, hmax⟩ := sort_tsGe_head_max hhead
      exact ⟨a, by unfold most_recent_full; rw [hs]; rfl, hmem, hmax⟩

/-- Helper: every entry of `all_backups` carries a timestamp at or before
the target. -/
theorem ts_le_of_mem_all_backups {c : Catalog} {target : Nat}
    {p : BackupKind × Nat} (h : p ∈ all_backups c target) : p.2 ≤ target := by
  unfold all_backups at h
  rcases List.mem_append.1 h with h1 | h1 <;>
  · obtain ⟨ts, hts, hp⟩ := List.mem_map.1 h1
    obtain ⟨_, hdec⟩ := List.mem_filter.1 hts
    rw [← hp]
    exact of_decide_eq_true hdec

/-- Helper: a full backup at or before the target belongs to
`all_backups`. -/
theorem full_mem_all_backups {c : Catalog} {target f : Nat}
    (hf : f ∈ c.fulls) (hle : f ≤ target) :
    (BackupKind.full, f) ∈ all_backups c target := by
  unfold all_backups
  exact List.mem_append.2
    (Or.inl (List.mem_map.2 ⟨f, List.mem_filter.2 ⟨hf, by simpa using hle⟩, rfl⟩))

/-- Helper: the anchor search succeeds when the candidate list is
nonempty. -/
theorem find_latest_eq_some_of_ne_nil {c : Catalog} {target : Nat}
    (h : all_backups c target ≠ []) :
    ∃ p, find_latest_backup_before_target c target = some p := by
  cases hs : List.insertionSort tsDesc (all_backups c target) with
  | nil =>
      exfalso
      have hperm := List.perm_insertionSort tsDesc (all_backups c target)
      rw [hs] at hperm
      exact h (List.Perm.eq_nil hperm.symm)
  | cons a t =>
      exact ⟨a, by unfold find_latest_backup_before_target; rw [hs]; rfl⟩

/-- Helper: the anchor's timestamp is at or before the target. -/
theorem find_latest_le_target {c : Catalog} {target : Nat}
    {p : BackupKind × Nat}
    (h : find_latest_backup_before_target c target = some p) : p.2 ≤ target := by
  unfold find_latest_backup_before_target at h
  exact ts_le_of_mem_all_backups
    ((List.mem_insertionSort tsDesc).1 (mem_of_head?_some h))

/-- Helper: every auto-discovered incremental lies strictly between the
full backup timestamp and the target. -/
theorem mem_find_incremental_backups {c : Catalog} {f target i : Nat}
    (h : i ∈ find_incremental_backups c f target) :
    i ∈ c.incrementals ∧ f < i ∧ i < target := by
  unfold find_incremental_backups at h
  obtain ⟨hmem, hdec⟩ :=
    List.mem_filter.1 ((List.mem_insertionSort (· ≤ ·)).1 h)
  simp only [Bool.and_eq_true] at hdec
  exact ⟨hmem, of_decide_eq_true hdec.1, of_decide_eq_true hdec.2⟩

/-- Helper: the auto-discovered incrementals are strictly ascending (so
sorted with no duplicates) as long as the incremental directory names are
distinct. -/
theorem find_incremental_backups_sorted {c : Catalog}
    (hnd : c.incrementals.Nodup) (f target : Nat) :
    (find_incremental_backups c f target).Sorted (· < ·) := by
  unfold find_incremental_backups
  refine List.Sorted.lt_of_le (List.sorted_insertionSort _ _) ?_
  exact ((List.perm_insertionSort _ _).nodup_iff).2 (hnd.filter _)

/-- Helper: `apply_binlog_to_datetime` either stops at one of the three
guards or returns the window decision. -/
theorem apply_binlog_cases (env : BinlogEnv) :
    apply_binlog_to_datetime env = .skipNoIndex ∨
    apply_binlog_to_datetime env = .skipNoFiles ∨
    apply_binlog_to_datetime env = .skipNoTool ∨
    apply_binlog_to_datetime env =
      binlog_window_decision (truthy_epoch env.targetEpoch)
        (latest_backup_timestamp env.fullBackupTs env.appliedIncTs) := by
  by_cases h1 : env.binlogIndexExists = true
  · by_cases h2 : env.binlogFiles.isEmpty = true
    · exact Or.inr (Or.inl (by simp [apply_binlog_to_datetime, h1, h2]))
    · have h2' : env.binlogFiles.isEmpty = false := by simpa using h2
      by_cases h3 : env.mysqlbinlogAvailable = true
      · exact Or.inr (Or.inr (Or.inr
          (by simp [apply_binlog_to_datetime, h1, h2', h3])))
      · have h3' : env.mysqlbinlogAvailable = false := by simpa using h3
        exact Or.inr (Or.inr (Or.inl
          (by simp [apply_binlog_to_datetime, h1, h2', h3'])))
  · have h1' : env.binlogIndexExists = false := by simpa using h1
    exact Or.inl (by simp [apply_binlog_to_datetime, h1'])

/-- Helper: every non-skipped window decision stops at target + 1. -/
theorem binlog_window_decision_stop {te be : Option Nat} {s : Option Nat}
    {p : Nat} (h : binlog_window_decision te be = .window s p) :
    ∃ t, te = some t ∧ p = t + 1 := by
  rcases te with _ | t
  · simp [binlog_window_decision] at h
  · rcases be with _ | b
    · refine ⟨t, rfl, ?_⟩
      simp [binlog_window_decision] at h
      omega
    · refine ⟨t, rfl, ?_⟩
      by_cases hle : t + 1 ≤ b
      · by_cases hle2 : t ≤ b
        · simp [binlog_window_decision, hle, hle2] at h
        · simp [binlog_window_decision, hle, hle2] at h
          omega
      · simp [binlog_window_decision, hle] at h
        omega

/-- Helper: no marker is written for a skipped outcome. -/
theorem binlog_marker_false_of_not_window {o : BinlogOutcome}
    (h : o.isWindow = false) (e : Bool) : binlog_marker_written o e = false := by
  cases o <;> simp_all [BinlogOutcome.isWindow, binlog_marker_written]

/-- C1, counterexample.  The claim states that every auto-resolved chain
has incrementals strictly below the target.  In the catalog with a full
backup at 10 and an incremental at 20, target 20, the anchor is the
incremental at 20 (at-or-before comparison, line 235), so the resolved
chain applies the incremental whose timestamp equals the target: the
strict upper bound fails. -/
theorem c1_counterexample :
    resolve_chain ⟨[10], [20]⟩ 20 none [] = Except.ok ⟨10, [20]⟩ ∧
    20 ∈ (BackupChain.mk 10 [20]).incrementals ∧ ¬ ((20 : Nat) < 20) :=
  ⟨rfl, by decide, by decide⟩

/-- C1 (amended).  For every catalog with at least one Full backup at or
before the target and distinct incremental directory names, auto-resolution
terminates with a chain; whenever the anchor is a Full backup the base is
that anchor, at or before the target, and the auto-discovered incrementals
(`find_incremental_backups`) all lie strictly between the supplied full
timestamp and the target, sorted strictly ascending (hence duplicate
free).  When the anchor is an Incremental, the chain is instead the most
recent full plus exactly that anchor, whose timestamp may equal the
target (see the counterexample). -/
theorem c1_chain_resolution_amended (c : Catalog) (target : Nat)
    (hnd : c.incrementals.Nodup) (hfull : ∃ f ∈ c.fulls, f ≤ target) :
    (∃ ch, resolve_chain c target none [] = Except.ok ch) ∧
    (∀ b, find_latest_backup_before_target c target = some (.full, b) →
      resolve_chain c target none [] =
        Except.ok ⟨b, find_incremental_backups c b target⟩ ∧ b ≤ target) ∧
    (∀ f i, i ∈ find_incremental_backups c f target → f < i ∧ i < target) ∧
    (∀ f, (find_incremental_backups c f target).Sorted (· < ·)) := by
  obtain ⟨f, hf, hle⟩ := hfull
  refine ⟨?_, ?_, ?_, ?_⟩
  · have hne : all_backups c target ≠ [] := by
      intro hnil
      have hmem := full_mem_all_backups hf hle
      rw [hnil] at hmem
      cases hmem
    obtain ⟨p, hp⟩ := find_latest_eq_some_of_ne_nil hne
    rcases p with ⟨k, ts⟩
    cases k with
    | full =>
        exact ⟨⟨ts, find_incremental_backups c ts target⟩,
          by simp [resolve_chain, hp]⟩
    | incremental =>
        have hfne : c.fulls ≠ [] := fun hn => by rw [hn] at hf; cases hf
        obtain ⟨b, hmr, _, _⟩ := most_recent_full_spec hfne
        exact ⟨⟨b, [ts]⟩, by simp [resolve_chain, hp, hmr]⟩
  · intro b hb
    exact ⟨by simp [resolve_chain, hb], find_latest_le_target hb⟩
  · intro g i hi
    exact (mem_find_incremental_backups hi).2
  · intro g
    exact find_incremental_backups_sorted hnd g target

/-- C1, witness for the amended theorem at a concrete catalog. -/
theorem c1_chain_resolution_amended_witness :
    (Catalog.mk [10] [3, 7]).incrementals.Nodup ∧
    (∃ f ∈ (Catalog.mk [10] [3, 7]).fulls, f ≤ 12) ∧
    (∃ ch, resolve_chain ⟨[10], [3, 7]⟩ 12 none [] = Except.ok ch) :=
  ⟨by decide, ⟨10, by decide, by decide⟩,
    (c1_chain_resolution_amended ⟨[10], [3, 7]⟩ 12 (by decide)
      ⟨10, by decide, by decide⟩).1⟩

/-- C3.  For every catalog containing no backup (full or incremental) at
or before the target, the restore run fails with the no-backup-before-
target fatal error and performs no restore step. -/
theorem c3_no_backup_fatal (c : Catalog) (target : Nat) (tools : ToolExits)
    (idx : Bool) (files : List String) (tool : Bool)
    (hf : ∀ t ∈ c.fulls, ¬ t ≤ target)
    (hi : ∀ t ∈ c.incrementals, ¬ t ≤ target) :
    restore_to_point_in_time c target none [] tools idx files tool =
      Except.error RestoreError.noBackupBeforeTarget := by
  have h1 : c.fulls.filter (fun ts => decide (ts ≤ target)) = [] :=
    List.filter_eq_nil_iff.2 (fun a ha => by simpa using hf a ha)
  have h2 : c.incrementals.filter (fun ts => decide (ts ≤ target)) = [] :=
    List.filter_eq_nil_iff.2 (fun a ha => by simpa using hi a ha)
  have hfl : find_latest_backup_before_target c target = none := by
    unfold find_latest_backup_before_target all_backups
    rw [h1, h2]
    rfl
  simp [restore_to_point_in_time, resolve_chain, hfl]

/-- C3, witness at a concrete catalog whose backups all postdate the
target. -/
theorem c3_no_backup_fatal_witness :
    (∀ t ∈ ([100] : List Nat), ¬ t ≤ 50) ∧
    (∀ t ∈ ([200] : List Nat), ¬ t ≤ 50) ∧
    restore_to_point_in_time ⟨[100], [200]⟩ 50 none [] ⟨0, [], 0, 0⟩ true [] true =
      Except.error RestoreError.noBackupBeforeTarget :=
  ⟨by decide, by decide,
    c3_no_backup_fatal ⟨[100], [200]⟩ 50 ⟨0, [], 0, 0⟩ true [] true
      (by decide) (by decide)⟩

/-- C5.  Whenever the anchor (maximum-timestamp backup at or before the
target) is an Incremental and at least one full backup exists, the
resolved chain's base is the most recent Full backup present in the
catalog (a maximal element of the full list) and the incrementals are
exactly the anchor. -/
theorem c5_incremental_anchor (c : Catalog) (target a : Nat)
    (h : find_latest_backup_before_target c target =
      some (BackupKind.incremental, a))
    (hne : c.fulls ≠ []) :
    ∃ b, resolve_chain c target none [] = Except.ok ⟨b, [a]⟩ ∧
      b ∈ c.fulls ∧ ∀ x ∈ c.fulls, x ≤ b := by
  obtain ⟨b, hmr, hmem, hmax⟩ := most_recent_full_spec hne
  exact ⟨b, by simp [resolve_chain, h, hmr], hmem, hmax⟩

/-- C5, witness: catalog with fulls at 4 and 2 and an incremental at 9,
target 10; the anchor is the incremental at 9. -/
theorem c5_incremental_anchor_witness :
    find_latest_backup_before_target ⟨[4, 2], [9]⟩ 10 =
      some (BackupKind.incremental, 9) ∧
    ([4, 2] : List Nat) ≠ [] ∧
    (∃ b, resolve_chain ⟨[4, 2], [9]⟩ 10 none [] = Except.ok ⟨b, [9]⟩ ∧
      b ∈ ([4, 2] : List Nat) ∧ ∀ x ∈ ([4, 2] : List Nat), x ≤ b) :=
  ⟨rfl, by decide, c5_incremental_anchor ⟨[4, 2], [9]⟩ 10 9 rfl (by decide)⟩

/-- C6, counterexample.  The claim states that with no explicit
incrementals an incremental whose timestamp equals the target is excluded
from the resolved chain; but when that incremental is the anchor (catalog
full at 3, incremental at 7, target 7) it is exactly the chain's single
incremental. -/
theorem c6_counterexample :
    resolve_chain ⟨[3], [7]⟩ 7 none [] = Except.ok ⟨3, [7]⟩ ∧
    7 ∈ (BackupChain.mk 3 [7]).incrementals :=
  ⟨rfl, by decide⟩

/-- C6 (amended).  With no explicit incrementals supplied, auto-discovery
(`find_incremental_backups`) never includes an incremental whose
timestamp equals the target: neither in explicit-full mode nor in auto
mode with a Full anchor.  Only when the anchor itself is an incremental at
exactly the target does that incremental get applied (see the
counterexample). -/
theorem c6_auto_discovery_excludes_target (c : Catalog) (target : Nat) :
    (∀ f ch, resolve_chain c target (some f) [] = Except.ok ch →
      target ∉ ch.incrementals) ∧
    (∀ b ch, find_latest_backup_before_target c target =
        some (BackupKind.full, b) →
      resolve_chain c target none [] = Except.ok ch →
      target ∉ ch.incrementals) := by
  constructor
  · intro f ch hch hmem
    simp only [resolve_chain, List.isEmpty_nil, if_true, Except.ok.injEq] at hch
    rw [← hch] at hmem
    exact absurd (mem_find_incremental_backups hmem).2.2 (lt_irrefl target)
  · intro b ch hb hch hmem
    simp only [resolve_chain, hb, Except.ok.injEq] at hch
    rw [← hch] at hmem
    exact absurd (mem_find_incremental_backups hmem).2.2 (lt_irrefl target)

/-- C6, witness for the amended theorem: explicit full 2, incrementals 5
and 8 in the catalog, target 8; the discovered chain is `[5]` and the
incremental at the target is excluded. -/
theorem c6_auto_discovery_excludes_target_witness :
    resolve_chain ⟨[2], [5, 8]⟩ 8 (some 2) [] = Except.ok ⟨2, [5]⟩ ∧
    8 ∉ (BackupChain.mk 2 [5]).incrementals :=
  ⟨rfl, (c6_auto_discovery_excludes_target ⟨[2], [5, 8]⟩ 8).1 2 ⟨2, [5]⟩ rfl⟩

/-- C2.  For every non-skipped binlog window, the stop bound passed to
`mysqlbinlog` equals the target instant's UTC epoch plus exactly one
second. -/
theorem c2_stop_bound (env : BinlogEnv) (s : Option Nat) (p : Nat)
    (h : apply_binlog_to_datetime env = BinlogOutcome.window s p) :
    ∃ t, truthy_epoch env.targetEpoch = some t ∧ p = t + 1 := by
  rcases apply_binlog_cases env with hc | hc | hc | hc <;> rw [hc] at h
  · exact BinlogOutcome.noConfusion h
  · exact BinlogOutcome.noConfusion h
  · exact BinlogOutcome.noConfusion h
  · exact binlog_window_decision_stop h

/-- C2, witness: backup at 50, target at 200, window runs with stop
201 = 200 + 1. -/
theorem c2_stop_bound_witness :
    apply_binlog_to_datetime ⟨true, ["h"], true, some 50, [], some 200⟩ =
      BinlogOutcome.window (some 50) 201 ∧
    (∃ t, truthy_epoch (some 200) = some t ∧ 201 = t + 1) :=
  ⟨rfl, c2_stop_bound ⟨true, ["h"], true, some 50, [], some 200⟩
    (some 50) 201 rfl⟩

/-- C4, counterexample.  The claim states the binlog step is skipped
whenever the target is at or before the last applied backup.  With both
equal to epoch 100 (and binlog index, files and tool available), the
source's skip guard `start_epoch >= stop_epoch` is 100 >= 101, false, so a
window is still computed with start 100 and stop 101 instead of
skipping. -/
theorem c4_counterexample :
    apply_binlog_to_datetime ⟨true, ["mysql-bin.000001"], true, some 100, [], some 100⟩ =
      BinlogOutcome.window (some 100) 101 ∧
    (100 : Nat) ≤ 100 ∧
    (BinlogOutcome.window (some 100) 101).isWindow = true :=
  ⟨rfl, by decide, rfl⟩

/-- C4 (amended).  If the target instant is strictly before the instant of
the last backup actually applied, the binlog extraction step is skipped
entirely: the outcome is never a window and no pending-apply marker is
written, whatever the extraction result would have been.  At exact
equality of the two instants a one-second window is still extracted (see
the counterexample). -/
theorem c4_skip_strictly_before (env : BinlogEnv) (t b : Nat)
    (ht : truthy_epoch env.targetEpoch = some t)
    (hb : latest_backup_timestamp env.fullBackupTs env.appliedIncTs = some b)
    (hlt : t < b) :
    (apply_binlog_to_datetime env).isWindow = false ∧
    ∀ e, binlog_marker_written (apply_binlog_to_datetime env) e = false := by
  have hw : (apply_binlog_to_datetime env).isWindow = false := by
    rcases apply_binlog_cases env with hc | hc | hc | hc <;> rw [hc]
    · rfl
    · rfl
    · rfl
    · rw [ht, hb]
      have h1 : t + 1 ≤ b := hlt
      have h2 : t ≤ b := Nat.le_of_lt hlt
      simp [binlog_window_decision, h1, h2, BinlogOutcome.isWindow]
  exact ⟨hw, fun e => binlog_marker_false_of_not_window hw e⟩

/-- C4, witness for the amended theorem: target 99 strictly before backup
100, the step is skipped. -/
theorem c4_skip_strictly_before_witness :
    truthy_epoch (some 99) = some 99 ∧
    latest_backup_timestamp (some 100) [] = some 100 ∧
    (99 : Nat) < 100 ∧
    (apply_binlog_to_datetime ⟨true, ["g"], true, some 100, [], some 99⟩).isWindow =
      false :=
  ⟨rfl, rfl, by decide,
    (c4_skip_strictly_before ⟨true, ["g"], true, some 100, [], some 99⟩
      99 100 rfl rfl (by decide)).1⟩

/-- C9, counterexample.  The claim states that a nonzero exit of the base
apply-log-only prepare, of any incremental merge, or of the
materialization aborts the restore.  With the base prepare, one
incremental merge and the copy-back all failing (exit 1) but the final
prepare succeeding, the merge phase reports success and the whole restore
runs to completion. -/
theorem c9_counterexample :
    run_merge_phase ⟨1, [1], 0, 1⟩ = Except.ok () ∧
    restore_to_point_in_time ⟨[5], []⟩ 10 none [] ⟨1, [1], 0, 1⟩ true ["f"] true =
      Except.ok ⟨⟨5, []⟩, BinlogOutcome.window (some 5) 11⟩ :=
  ⟨rfl, rfl⟩

/-- C9 (amended).  Among the merge/materialize steps, only the final full
prepare is checked: the merge phase succeeds exactly when the final
prepare exits 0, and the exit codes of the base apply-log-only prepare,
the incremental merges and the copy-back never influence the result. -/
theorem c9_only_final_prepare_fatal (t : ToolExits) :
    (run_merge_phase t = Except.ok () ↔ t.finalPrepare = 0) ∧
    (run_merge_phase t = Except.error RestoreError.finalPrepareFailed ↔
      t.finalPrepare ≠ 0) ∧
    (∀ b b2 cb cb2 : Nat, ∀ i i2 : List Nat,
      run_merge_phase ⟨b, i, t.finalPrepare, cb⟩ =
        run_merge_phase ⟨b2, i2, t.finalPrepare, cb2⟩) := by
  refine ⟨?_, ?_, ?_⟩
  · by_cases hf : t.finalPrepare = 0 <;> simp [run_merge_phase, hf]
  · by_cases hf : t.finalPrepare = 0 <;> simp [run_merge_phase, hf]
  · intro b b2 cb cb2 i i2
    rfl

/-- C10.  If the binlog index file cannot be found or the extraction tool
is not installed, the restore silently skips the binlog replay step (no
window, no marker for any extraction result) yet still completes and
reports success, leaving the data at the last backup's state. -/
theorem c10_missing_tool_silent_skip (c : Catalog) (target : Nat)
    (explicitFull : Option Nat) (explicitIncs : List Nat) (tools : ToolExits)
    (idx tool : Bool) (files : List String) (ch : BackupChain)
    (hres : resolve_chain c target explicitFull explicitIncs = Except.ok ch)
    (hfp : tools.finalPrepare = 0)
    (hskip : idx = false ∨ tool = false) :
    ∃ r, restore_to_point_in_time c target explicitFull explicitIncs tools
        idx files tool = Except.ok r ∧
      r.binlog.isWindow = false ∧
      ∀ e, binlog_marker_written r.binlog e = false := by
  have hm : run_merge_phase tools = Except.ok () := by
    simp [run_merge_phase, hfp]
  have hw : (apply_binlog_to_datetime
      ⟨idx, files, tool, some ch.base, ch.incrementals, some target⟩).isWindow =
        false := by
    rcases hskip with rfl | rfl
    · simp [apply_binlog_to_datetime, BinlogOutcome.isWindow]
    · cases idx with
      | false => simp [apply_binlog_to_datetime, BinlogOutcome.isWindow]
      | true =>
          by_cases hfe : files.isEmpty = true
          · simp [apply_binlog_to_datetime, hfe, BinlogOutcome.isWindow]
          · have hfe' : files.isEmpty = false := by simpa using hfe
            simp [apply_binlog_to_datetime, hfe', BinlogOutcome.isWindow]
  refine ⟨⟨ch, apply_binlog_to_datetime
      ⟨idx, files, tool, some ch.base, ch.incrementals, some target⟩⟩, ?_, hw,
    fun e => binlog_marker_false_of_not_window hw e⟩
  simp [restore_to_point_in_time, hres, hm]

/-- C10, witness: index file absent, restore completes with a skipped
binlog step. -/
theorem c10_missing_tool_silent_skip_witness :
    resolve_chain ⟨[5], []⟩ 9 none [] = Except.ok ⟨5, []⟩ ∧
    (∃ r, restore_to_point_in_time ⟨[5], []⟩ 9 none [] ⟨0, [], 0, 0⟩
        false [] true = Except.ok r ∧
      r.binlog.isWindow = false ∧
      ∀ e, binlog_marker_written r.binlog e = false) :=
  ⟨rfl, c10_missing_tool_silent_skip ⟨[5], []⟩ 9 none [] ⟨0, [], 0, 0⟩
    false true [] ⟨5, []⟩ rfl rfl (Or.inl rfl)⟩

/-- C7, counterexample.  The claim states that a line containing
"ERROR 1146" classifies as critical; but the source lists ERROR 1146
among the non-critical patterns (apply_pitr_binlog.py line 238), so such
a line classifies non-critical and contributes no critical error. -/
theorem c7_counterexample :
    criticalLine ("ERROR 1146 (42S02): Table does not exist".data) = false ∧
    critical_errors ("ERROR 1146 (42S02): Table does not exist".data) = [] :=
  ⟨by decide, by decide⟩

/-- C7 (amended).  Every line containing "ERROR 1062" (duplicate entry)
classifies non-critical; a line containing "ERROR 1146" also classifies
non-critical (together with 1050, 1032, password and warning lines); any
line containing "ERROR" that matches none of the non-critical patterns
classifies critical. -/
theorem c7_error_classifier (line : List Char) :
    (containsSub ("ERROR 1062".data) (pyUpper line) = true →
      criticalLine line = false) ∧
    (containsSub ("ERROR 1146".data) (pyUpper line) = true →
      criticalLine line = false) ∧
    (containsSub errorPat (pyUpper line) = true →
      is_non_critical_line (pyUpper line) = false →
      criticalLine line = true) := by
  refine ⟨?_, ?_, ?_⟩
  · intro h
    simp [criticalLine, is_non_critical_line, nonCriticalPats, h]
  · intro h
    simp [criticalLine, is_non_critical_line, nonCriticalPats, h]
  · intro h1 h2
    simp [criticalLine, h1, h2]

/-- C7, witness: a duplicate-entry line is non-critical and an
unrecognized error line is critical. -/
theorem c7_error_classifier_witness :
    criticalLine ("ERROR 1062 (23000): Duplicate entry for key".data) = false ∧
    criticalLine ("ERROR 2013 (HY000): Lost connection".data) = true :=
  ⟨(c7_error_classifier ("ERROR 1062 (23000): Duplicate entry for key".data)).1
      (by decide),
    (c7_error_classifier ("ERROR 2013 (HY000): Lost connection".data)).2.2
      (by decide) (by decide)⟩

/-- C8.  With the marker present and valid and MySQL reachable, the
deferred apply succeeds (returns 0) exactly when the replay process exits
0 or exits nonzero with zero critical-classified output lines; the marker
is removed exactly on success, and the replay SQL file is never
removed. -/
theorem c8_deferred_apply_success_iff (code : Int) (output : List Char) :
    ((apply_pitr_main true true true (some (code, output))).returnCode = 0 ↔
      code = 0 ∨ critical_count output = 0) ∧
    ((apply_pitr_main true true true (some (code, output))).markerRemoved = true ↔
      code = 0 ∨ critical_count output = 0) ∧
    (apply_pitr_main true true true (some (code, output))).sqlFileRemoved =
      false := by
  by_cases h : code = 0 ∨ critical_count output = 0 <;>
    simp [apply_pitr_main, h]
